import Mathlib

/-!
A shallow embedding of the point-cloud software renderer in `src/main.ts`
(classes `Camera`, `Mesh`, `Device`) together with the vector/matrix math
module it imports. JavaScript numbers are modelled as exact rationals;
the two integer conversions the program relies on are modelled precisely:

* `x >> 0` is the ECMAScript ToInt32 conversion — truncation toward zero
  followed by wrapping into the signed 32-bit range (`jsToInt32`);
* assignment into `ImageData.data` (a `Uint8ClampedArray`) is the
  ECMAScript ToUint8Clamp conversion — clamp to `[0,255]` and round to the
  nearest integer, ties to even (`toUint8Clamp`); a store outside the
  array bounds is silently ignored (`writeByte`).

The trigonometric and square-root primitives of the host platform are
taken as parameters (`Trig`), since no property proved here depends on
their values.
-/

namespace SoftRenderer

attribute [local semireducible] Rat.mul Rat.add Rat.sub Rat.inv

/-- Truncation of a rational toward zero, as in ECMAScript
ToIntegerOrInfinity: the T-division of the numerator by the denominator
(`ratTrunc_eq_floor` and `ratTrunc_eq_ceil` below relate it to ⌊·⌋ and
⌈·⌉ on the two signs). -/
def ratTrunc (q : ℚ) : ℤ :=
  q.num.tdiv q.den

/-- ECMAScript ToInt32 (the `x >> 0` conversion in `src/main.ts`):
truncate toward zero, then wrap into `[-2^31, 2^31)` modulo `2^32`. -/
def jsToInt32 (q : ℚ) : ℤ :=
  (ratTrunc q + 2 ^ 31) % 2 ^ 32 - 2 ^ 31

/-- ECMAScript ToUint8Clamp, the conversion applied by a store into a
`Uint8ClampedArray` such as `ImageData.data`: clamp to `[0,255]`, then
round to the nearest integer, ties to even. In the interior branch the
argument is positive, so its floor (as ToUint8Clamp specifies) equals
its truncation `ratTrunc`. -/
def toUint8Clamp (q : ℚ) : ℕ :=
  if q ≤ 0 then 0
  else if 255 ≤ q then 255
  else if ((ratTrunc q).toNat : ℚ) + 1 / 2 < q then (ratTrunc q).toNat + 1
  else if q < ((ratTrunc q).toNat : ℚ) + 1 / 2 then (ratTrunc q).toNat
  else if (ratTrunc q).toNat % 2 = 1 then (ratTrunc q).toNat + 1
  else (ratTrunc q).toNat

/-- A store `arr[i] = v` into a typed array of bytes: out-of-range
indices (negative or past the end) are silently ignored, in-range stores
replace the byte. -/
def writeByte (l : List ℕ) (i : ℤ) (v : ℕ) : List ℕ :=
  if 0 ≤ i ∧ i.toNat < l.length then l.set i.toNat v else l

/-- Modelled from the spec: the math module `math.ts` is not in the
sources; per §3 a `Vector3` is an (x, y, z) real-valued triple. -/
structure Vector3 where
  x : ℚ
  y : ℚ
  z : ℚ
deriving DecidableEq

/-- Modelled from the spec: `math.ts` is missing; per §3 a `Vector2` is
an (x, y) real-valued pair (a screen-space point after projection). -/
structure Vector2 where
  x : ℚ
  y : ℚ
deriving DecidableEq

/-- Modelled from the spec: `math.ts` is missing; per §3 a `Color4` is
(r, g, b, a), each channel in `[0,1]`. -/
structure Color4 where
  r : ℚ
  g : ℚ
  b : ℚ
  a : ℚ
deriving DecidableEq

/-- Modelled from the spec: `math.ts` is missing; per §3 a `Matrix` is a
4×4 real-valued array, used here in row-vector convention (a point is a
row vector multiplied on the left of the matrix, translation in the
fourth row), consistently across all operations. -/
structure Matrix where
  m11 : ℚ
  m12 : ℚ
  m13 : ℚ
  m14 : ℚ
  m21 : ℚ
  m22 : ℚ
  m23 : ℚ
  m24 : ℚ
  m31 : ℚ
  m32 : ℚ
  m33 : ℚ
  m34 : ℚ
  m41 : ℚ
  m42 : ℚ
  m43 : ℚ
  m44 : ℚ
deriving DecidableEq

/-- The host platform's numeric primitives (Math.sin, Math.cos, Math.tan,
Math.sqrt), taken as parameters: no claim proved below depends on their
values. -/
structure Trig where
  sin : ℚ → ℚ
  cos : ℚ → ℚ
  tan : ℚ → ℚ
  sqrt : ℚ → ℚ

namespace Vector3

/-- Modelled from the spec (§4.1): `Vector3.Zero()` returns (0,0,0). -/
def Zero : Vector3 := ⟨0, 0, 0⟩

/-- Modelled from the spec (§4.1): `Vector3.Up()` returns (0,1,0). -/
def Up : Vector3 := ⟨0, 1, 0⟩

/-- Modelled from the spec (§4.1): vector subtraction used by the
look-at construction (`target - eye`). -/
def sub (a b : Vector3) : Vector3 := ⟨a.x - b.x, a.y - b.y, a.z - b.z⟩

/-- Modelled from the spec (§4.1): dot product used by the look-at
construction. -/
def dot (a b : Vector3) : ℚ := a.x * b.x + a.y * b.y + a.z * b.z

/-- Modelled from the spec (§4.1): cross product used by the look-at
construction. -/
def cross (a b : Vector3) : Vector3 :=
  ⟨a.y * b.z - a.z * b.y, a.z * b.x - a.x * b.z, a.x * b.y - a.y * b.x⟩

/-- Modelled from the spec (§4.1): normalization (division by the
Euclidean length, via the platform square root); degenerate zero-length
input is unguarded, as the spec documents. -/
def normalize (t : Trig) (v : Vector3) : Vector3 :=
  let len := t.sqrt (dot v v)
  ⟨v.x / len, v.y / len, v.z / len⟩

end Vector3

namespace Matrix

/-- Modelled from the spec (§4.1): standard (non-commutative) 4×4 matrix
product; `A.multiply B` is the row-by-column product A·B. -/
def multiply (a b : Matrix) : Matrix where
  m11 := a.m11 * b.m11 + a.m12 * b.m21 + a.m13 * b.m31 + a.m14 * b.m41
  m12 := a.m11 * b.m12 + a.m12 * b.m22 + a.m13 * b.m32 + a.m14 * b.m42
  m13 := a.m11 * b.m13 + a.m12 * b.m23 + a.m13 * b.m33 + a.m14 * b.m43
  m14 := a.m11 * b.m14 + a.m12 * b.m24 + a.m13 * b.m34 + a.m14 * b.m44
  m21 := a.m21 * b.m11 + a.m22 * b.m21 + a.m23 * b.m31 + a.m24 * b.m41
  m22 := a.m21 * b.m12 + a.m22 * b.m22 + a.m23 * b.m32 + a.m24 * b.m42
  m23 := a.m21 * b.m13 + a.m22 * b.m23 + a.m23 * b.m33 + a.m24 * b.m43
  m24 := a.m21 * b.m14 + a.m22 * b.m24 + a.m23 * b.m34 + a.m24 * b.m44
  m31 := a.m31 * b.m11 + a.m32 * b.m21 + a.m33 * b.m31 + a.m34 * b.m41
  m32 := a.m31 * b.m12 + a.m32 * b.m22 + a.m33 * b.m32 + a.m34 * b.m42
  m33 := a.m31 * b.m13 + a.m32 * b.m23 + a.m33 * b.m33 + a.m34 * b.m43
  m34 := a.m31 * b.m14 + a.m32 * b.m24 + a.m33 * b.m34 + a.m34 * b.m44
  m41 := a.m41 * b.m11 + a.m42 * b.m21 + a.m43 * b.m31 + a.m44 * b.m41
  m42 := a.m41 * b.m12 + a.m42 * b.m22 + a.m43 * b.m32 + a.m44 * b.m42
  m43 := a.m41 * b.m13 + a.m42 * b.m23 + a.m43 * b.m33 + a.m44 * b.m43
  m44 := a.m41 * b.m14 + a.m42 * b.m24 + a.m43 * b.m34 + a.m44 * b.m44

/-- Modelled from the spec (§4.1): `Matrix.Translation(x, y, z)` is a
pure translation matrix with identity rotation block (translation in the
fourth row under the row-vector convention). -/
def Translation (x y z : ℚ) : Matrix :=
  ⟨1, 0, 0, 0,
   0, 1, 0, 0,
   0, 0, 1, 0,
   x, y, z, 1⟩

/-- Modelled from the spec (§4.1): rotation about the X axis by the
given angle (used for pitch). -/
def RotationX (t : Trig) (angle : ℚ) : Matrix :=
  ⟨1, 0, 0, 0,
   0, t.cos angle, t.sin angle, 0,
   0, -t.sin angle, t.cos angle, 0,
   0, 0, 0, 1⟩

/-- Modelled from the spec (§4.1): rotation about the Y axis by the
given angle (used for yaw). -/
def RotationY (t : Trig) (angle : ℚ) : Matrix :=
  ⟨t.cos angle, 0, -t.sin angle, 0,
   0, 1, 0, 0,
   t.sin angle, 0, t.cos angle, 0,
   0, 0, 0, 1⟩

/-- Modelled from the spec (§4.1): rotation about the Z axis by the
given angle (used for roll). -/
def RotationZ (t : Trig) (angle : ℚ) : Matrix :=
  ⟨t.cos angle, t.sin angle, 0, 0,
   -t.sin angle, t.cos angle, 0, 0,
   0, 0, 1, 0,
   0, 0, 0, 1⟩

/-- Modelled from the spec (§4.1): `Matrix.RotationYawPitchRoll`
composes intrinsic rotations about Y (yaw), X (pitch) and Z (roll),
order fixed as yaw ∘ pitch ∘ roll (roll applied first under the
row-vector convention). -/
def RotationYawPitchRoll (t : Trig) (yaw pitch roll : ℚ) : Matrix :=
  ((RotationZ t roll).multiply (RotationX t pitch)).multiply (RotationY t yaw)

/-- Modelled from the spec (§4.1): `Matrix.LookAtLH(eye, target, up)`
builds a left-handed view matrix: forward = normalize(target − eye),
right = normalize(up × forward), trueUp = forward × right; rotation
columns from (right, trueUp, forward) and a translation row of negated
dot products with the eye. Degenerate input is unguarded. -/
def LookAtLH (t : Trig) (eye target up : Vector3) : Matrix :=
  let zaxis := Vector3.normalize t (Vector3.sub target eye)
  let xaxis := Vector3.normalize t (Vector3.cross up zaxis)
  let yaxis := Vector3.cross zaxis xaxis
  ⟨xaxis.x, yaxis.x, zaxis.x, 0,
   xaxis.y, yaxis.y, zaxis.y, 0,
   xaxis.z, yaxis.z, zaxis.z, 0,
   -(Vector3.dot xaxis eye), -(Vector3.dot yaxis eye), -(Vector3.dot zaxis eye), 1⟩

/-- Modelled from the spec (§4.1): `Matrix.PerspectiveFovLH` is the
standard left-handed perspective projection: scale-y = 1/tan(fov/2),
scale-x = scale-y/aspect, and the standard LH depth-mapping terms
sending z into `[0,1]`. -/
def PerspectiveFovLH (t : Trig) (fov aspect znear zfar : ℚ) : Matrix :=
  let sy := 1 / t.tan (fov / 2)
  ⟨sy / aspect, 0, 0, 0,
   0, sy, 0, 0,
   0, 0, zfar / (zfar - znear), 1,
   0, 0, -(znear * zfar) / (zfar - znear), 0⟩

end Matrix

/-- Modelled from the spec (§4.1): `Vector3.TransformCoordinates(v, M)`
applies the 4×4 matrix to the point as the homogeneous row vector
(x, y, z, 1) and performs the perspective divide by the resulting w
component (w = 0 is a documented degenerate case; rational division by
zero yields zero here). -/
def TransformCoordinates (v : Vector3) (m : Matrix) : Vector3 :=
  let x := v.x * m.m11 + v.y * m.m21 + v.z * m.m31 + m.m41
  let y := v.x * m.m12 + v.y * m.m22 + v.z * m.m32 + m.m42
  let z := v.x * m.m13 + v.y * m.m23 + v.z * m.m33 + m.m43
  let w := v.x * m.m14 + v.y * m.m24 + v.z * m.m34 + m.m44
  ⟨x / w, y / w, z / w⟩

/-- The `Camera` class of `src/main.ts`: a position and a look-at target. -/
structure Camera where
  Position : Vector3
  Target : Vector3
deriving DecidableEq

/-- The `Mesh` class of `src/main.ts`: a name, a position, an Euler
rotation and an ordered sequence of vertices. -/
structure Mesh where
  name : String
  Position : Vector3
  Rotation : Vector3
  Vertices : List Vector3
deriving DecidableEq

/-- The `Device` class of `src/main.ts`: the working width and height
recorded at construction (read-only fields) and the back-buffer byte
data (`backbuffer.data`, a flat RGBA byte sequence). -/
structure Device where
  workingWidth : ℕ
  workingHeight : ℕ
  data : List ℕ
deriving DecidableEq

namespace Device

/-- Method clear of Device in `src/main.ts`: clears the canvas rectangle and
re-reads the image data, replacing the back buffer wholesale with a
fresh width×height buffer of transparent-black (all-zero) bytes. -/
def clear (dev : Device) : Device :=
  { dev with
    data := List.replicate (dev.workingWidth * dev.workingHeight * 4) 0 }

/-- The four bytes a `putPixel` store produces from a color: each 0..1
channel is multiplied by 255 and passes through the Uint8ClampedArray
conversion on assignment, in R, G, B, A order. -/
def bytesOfColor (color : Color4) : ℕ × ℕ × ℕ × ℕ :=
  (toUint8Clamp (color.r * 255), toUint8Clamp (color.g * 255),
   toUint8Clamp (color.b * 255), toUint8Clamp (color.a * 255))

/-- The flat buffer index `putPixel` computes:
`((x >> 0) + (y >> 0) * workingWidth) * 4`. -/
def pixelIndex (dev : Device) (x y : ℚ) : ℤ :=
  (jsToInt32 x + jsToInt32 y * (dev.workingWidth : ℤ)) * 4

/-- Method putPixel of Device in `src/main.ts`: computes the flat index from the
`>> 0`-converted coordinates and stores the four scaled color channels
at consecutive indices of the back-buffer byte array. -/
def putPixel (dev : Device) (x y : ℚ) (color : Color4) : Device :=
  let index := pixelIndex dev x y
  let bs := bytesOfColor color
  { dev with
    data := writeByte (writeByte (writeByte (writeByte dev.data
      index bs.1) (index + 1) bs.2.1) (index + 2) bs.2.2.1) (index + 3) bs.2.2.2 }

/-- Method project of Device in `src/main.ts`: transforms the 3D coordinate by
the matrix (homogeneous transform and perspective divide), then remaps
to pixel space with `x * width + width/2 >> 0` and
`-y * height + height/2 >> 0` (the Y flip). -/
def project (dev : Device) (coord : Vector3) (transMat : Matrix) : Vector2 :=
  let point := TransformCoordinates coord transMat
  let x := jsToInt32 (point.x * (dev.workingWidth : ℚ) + (dev.workingWidth : ℚ) / 2)
  let y := jsToInt32 (-point.y * (dev.workingHeight : ℚ) + (dev.workingHeight : ℚ) / 2)
  ⟨(x : ℚ), (y : ℚ)⟩

/-- Method drawPoint of Device in `src/main.ts`: clips against
`[0, width) × [0, height)` and, when visible, draws a yellow point via
`putPixel` with color (1, 1, 0, 1). -/
def drawPoint (dev : Device) (point : Vector2) : Device :=
  if 0 ≤ point.x ∧ 0 ≤ point.y ∧ point.x < (dev.workingWidth : ℚ) ∧
      point.y < (dev.workingHeight : ℚ) then
    putPixel dev point.x point.y ⟨1, 1, 0, 1⟩
  else
    dev

/-- The inner `for` loop of `Device.render`: projects and draws each
vertex of the current mesh in index order. -/
def renderVertices (dev : Device) (transformMatrix : Matrix) :
    List Vector3 → Device
  | [] => dev
  | v :: vs =>
      renderVertices (drawPoint dev (project dev v transformMatrix)) transformMatrix vs

/-- The per-mesh matrix computation in the body of `Device.render`'s
outer loop: the world matrix is the rotation from yaw = Rotation.y,
pitch = Rotation.x, roll = Rotation.z, multiplied by the translation
from Position, and the composite transform is
world · view · projection in that order. -/
def meshTransform (t : Trig) (viewMatrix projectionMatrix : Matrix)
    (cMesh : Mesh) : Matrix :=
  let worldMatrix :=
    (Matrix.RotationYawPitchRoll t cMesh.Rotation.y cMesh.Rotation.x
      cMesh.Rotation.z).multiply
      (Matrix.Translation cMesh.Position.x cMesh.Position.y cMesh.Position.z)
  (worldMatrix.multiply viewMatrix).multiply projectionMatrix

/-- The outer `for` loop of `Device.render`: for each mesh in sequence
order, builds its world matrix and composite transform
(`meshTransform`) and runs the vertex loop. -/
def renderMeshes (t : Trig) (dev : Device) (viewMatrix projectionMatrix : Matrix) :
    List Mesh → Device
  | [] => dev
  | cMesh :: rest =>
      renderMeshes t
        (renderVertices dev (meshTransform t viewMatrix projectionMatrix cMesh)
          cMesh.Vertices)
        viewMatrix projectionMatrix rest

/-- Method render of Device in `src/main.ts`: builds the view matrix (look-at
from the camera) and the projection matrix (perspective with fov 0.78,
aspect width/height, znear 0.01, zfar 1.0) once, then runs the mesh
loop. -/
def render (t : Trig) (dev : Device) (camera : Camera) (meshes : List Mesh) : Device :=
  let viewMatrix := Matrix.LookAtLH t camera.Position camera.Target Vector3.Up
  let projectionMatrix := Matrix.PerspectiveFovLH t (0.78 : ℚ)
    ((dev.workingWidth : ℚ) / (dev.workingHeight : ℚ)) (0.01 : ℚ) (1.0 : ℚ)
  renderMeshes t dev viewMatrix projectionMatrix meshes

end Device

/-- The per-frame state visible to `Device.render`: the device together
with the camera and mesh list it receives. Used to express that the
render loop writes only to the device. -/
structure Scene where
  device : Device
  camera : Camera
  meshes : List Mesh

/-- The inner vertex loop of `Device.render`, transcribed over the full
per-frame state: its body reads the mesh data and writes only through
`drawPoint` on the device. -/
def renderVerticesS (s : Scene) (transformMatrix : Matrix) :
    List Vector3 → Scene
  | [] => s
  | v :: vs =>
      renderVerticesS
        ⟨Device.drawPoint s.device (Device.project s.device v transformMatrix),
         s.camera, s.meshes⟩ transformMatrix vs

/-- The outer mesh loop of `Device.render`, transcribed over the full
per-frame state: the matrices are computed from reads of the current
mesh; no field of the camera or of any mesh is assigned. -/
def renderMeshesS (t : Trig) (s : Scene) (viewMatrix projectionMatrix : Matrix) :
    List Mesh → Scene
  | [] => s
  | cMesh :: rest =>
      renderMeshesS t
        (renderVerticesS s (Device.meshTransform t viewMatrix projectionMatrix cMesh)
          cMesh.Vertices)
        viewMatrix projectionMatrix rest

/-- Method render over the full per-frame state: view and projection
matrices from the camera and device dimensions, then the mesh loop. -/
def renderS (t : Trig) (s : Scene) : Scene :=
  let viewMatrix := Matrix.LookAtLH t s.camera.Position s.camera.Target Vector3.Up
  let projectionMatrix := Matrix.PerspectiveFovLH t (0.78 : ℚ)
    ((s.device.workingWidth : ℚ) / (s.device.workingHeight : ℚ)) (0.01 : ℚ) (1.0 : ℚ)
  renderMeshesS t s viewMatrix projectionMatrix s.meshes

/-- The rendering procedure as the specification describes it: the view
and projection matrices are computed once and shared; each mesh in
sequence order gets world = RotationYawPitchRoll(Rotation.y, Rotation.x,
Rotation.z) · Translation(Position), transform = world · view ·
projection; each vertex in index order is projected and drawn. -/
def renderPerSpec (t : Trig) (dev : Device) (camera : Camera)
    (meshes : List Mesh) : Device :=
  let viewMatrix := Matrix.LookAtLH t camera.Position camera.Target Vector3.Up
  let projectionMatrix := Matrix.PerspectiveFovLH t (0.78 : ℚ)
    ((dev.workingWidth : ℚ) / (dev.workingHeight : ℚ)) (0.01 : ℚ) (1.0 : ℚ)
  meshes.foldl (fun d cMesh =>
    let transformMatrix := Device.meshTransform t viewMatrix projectionMatrix cMesh
    cMesh.Vertices.foldl
      (fun d2 v => Device.drawPoint d2 (Device.project d2 v transformMatrix)) d) dev

/-- The 4×4 identity matrix, used as a concrete transform input. -/
def idMatrix : Matrix :=
  ⟨1, 0, 0, 0,
   0, 1, 0, 0,
   0, 0, 1, 0,
   0, 0, 0, 1⟩

/-- The buffer index of a pixel store exactly as the specification words
it: x and y converted by plain truncation toward zero (with no 32-bit
wrap), index ((y·width)+x)·4. Stated for comparison against the
`pixelIndex` the source computes through `>> 0`. -/
def pixelIndexPerClaim (dev : Device) (x y : ℚ) : ℤ :=
  (ratTrunc y * (dev.workingWidth : ℤ) + ratTrunc x) * 4

/-- The pixel store exactly as the specification words it: the four
channel bytes written in R, G, B, A order at `pixelIndexPerClaim`. -/
def putPixelPerClaim (dev : Device) (x y : ℚ) (color : Color4) : Device :=
  let index := pixelIndexPerClaim dev x y
  let bs := Device.bytesOfColor color
  { dev with
    data := writeByte (writeByte (writeByte (writeByte dev.data
      index bs.1) (index + 1) bs.2.1) (index + 2) bs.2.2.1) (index + 3) bs.2.2.2 }

/-- A concrete device wider than 2^31 pixels (width 3·2^30, height 2)
with its invariant-sized buffer (3·2^33 zero bytes), on which the 32-bit
wrap of `>> 0` is observable for in-bounds coordinates. -/
def devWide : Device := Device.mk 3221225472 2 (List.replicate 25769803776 0)

/-- A concrete instantiation of the platform numeric primitives (all
constantly zero), used to instantiate theorems quantified over `Trig`. -/
def trigZero : Trig := ⟨fun _ => 0, fun _ => 0, fun _ => 0, fun _ => 0⟩

lemma ratTrunc_eq_floor {q : ℚ} (h : 0 ≤ q) : ratTrunc q = ⌊q⌋ := by
  rw [ratTrunc, Int.tdiv_eq_ediv (Rat.num_nonneg.mpr h) (Int.ofNat_nonneg q.den)]
  exact (Rat.floor_def).symm

lemma ratTrunc_eq_ceil {q : ℚ} (h : q ≤ 0) : ratTrunc q = ⌈q⌉ := by
  have hnum : q.num ≤ 0 := Rat.num_nonpos.mpr h
  have h1 : q.num.tdiv q.den = -((-q.num).tdiv q.den) := by
    rw [← Int.neg_tdiv, neg_neg]
  have h2 : (-q.num).tdiv (q.den : ℤ) = (-q.num) / (q.den : ℤ) :=
    Int.tdiv_eq_ediv (by omega) (Int.ofNat_nonneg q.den)
  have h3 : ((-q).num) / ((-q).den : ℤ) = (-q.num) / (q.den : ℤ) := by
    rw [Rat.num_neg_eq_neg_num, Rat.den_neg_eq_den]
  rw [ratTrunc, h1, h2, ← h3, ← Rat.floor_def, Int.floor_neg]
  ring

lemma ratTrunc_intCast (n : ℤ) : ratTrunc (n : ℚ) = n := by
  rcases le_or_lt 0 (n : ℚ) with h | h
  · rw [ratTrunc_eq_floor h, Int.floor_intCast]
  · rw [ratTrunc_eq_ceil h.le, Int.ceil_intCast]

lemma jsToInt32_eq_ratTrunc {q : ℚ} (h1 : -(2 ^ 31) < q) (h2 : q < 2 ^ 31) :
    jsToInt32 q = ratTrunc q := by
  have ht1 : -(2 ^ 31) < ratTrunc q := by
    rcases le_or_lt 0 q with h | h
    · rw [ratTrunc_eq_floor h]
      have : (0 : ℤ) ≤ ⌊q⌋ := Int.floor_nonneg.mpr h
      omega
    · rw [ratTrunc_eq_ceil h.le]
      exact_mod_cast Int.lt_ceil.mpr (by exact_mod_cast h1)
  have ht2 : ratTrunc q < 2 ^ 31 := by
    rcases le_or_lt 0 q with h | h
    · rw [ratTrunc_eq_floor h]
      exact_mod_cast Int.floor_lt.mpr (by exact_mod_cast h2)
    · rw [ratTrunc_eq_ceil h.le]
      have : ⌈q⌉ ≤ 0 := Int.ceil_le.mpr (by exact_mod_cast h.le)
      omega
  rw [jsToInt32, Int.emod_eq_of_lt (by omega) (by omega)]
  omega

lemma jsToInt32_intCast {n : ℤ} (h1 : -(2 ^ 31) ≤ n) (h2 : n < 2 ^ 31) :
    jsToInt32 (n : ℚ) = n := by
  rw [jsToInt32, ratTrunc_intCast, Int.emod_eq_of_lt (by omega) (by omega)]
  omega

lemma jsToInt32_lb (q : ℚ) : -(2 ^ 31) ≤ jsToInt32 q := by
  have := Int.emod_nonneg (ratTrunc q + 2 ^ 31) (by norm_num : (2 ^ 32 : ℤ) ≠ 0)
  rw [jsToInt32]
  omega

lemma jsToInt32_ub (q : ℚ) : jsToInt32 q < 2 ^ 31 := by
  have := Int.emod_lt_of_pos (ratTrunc q + 2 ^ 31) (by norm_num : (0 : ℤ) < 2 ^ 32)
  rw [jsToInt32]
  omega

lemma renderVertices_cons (dev : Device) (tm : Matrix) (v : Vector3)
    (vs : List Vector3) :
    Device.renderVertices dev tm (v :: vs) =
      Device.renderVertices (Device.drawPoint dev (Device.project dev v tm)) tm vs := rfl

lemma renderMeshes_cons (t : Trig) (dev : Device) (viewMatrix projectionMatrix : Matrix)
    (cMesh : Mesh) (rest : List Mesh) :
    Device.renderMeshes t dev viewMatrix projectionMatrix (cMesh :: rest) =
      Device.renderMeshes t
        (Device.renderVertices dev
          (Device.meshTransform t viewMatrix projectionMatrix cMesh) cMesh.Vertices)
        viewMatrix projectionMatrix rest := rfl

lemma renderVertices_eq_foldl (transformMatrix : Matrix) :
    ∀ (vs : List Vector3) (dev : Device),
      Device.renderVertices dev transformMatrix vs =
        vs.foldl (fun d v => Device.drawPoint d (Device.project d v transformMatrix)) dev := by
  intro vs
  induction vs with
  | nil => intro dev; rfl
  | cons v vs ih =>
      intro dev
      rw [renderVertices_cons, List.foldl_cons]
      exact ih _

lemma renderMeshes_eq_foldl (t : Trig) (viewMatrix projectionMatrix : Matrix) :
    ∀ (meshes : List Mesh) (dev : Device),
      Device.renderMeshes t dev viewMatrix projectionMatrix meshes =
        meshes.foldl (fun d cMesh =>
          let transformMatrix := Device.meshTransform t viewMatrix projectionMatrix cMesh
          cMesh.Vertices.foldl
            (fun d2 v => Device.drawPoint d2 (Device.project d2 v transformMatrix)) d)
          dev := by
  intro meshes
  induction meshes with
  | nil => intro dev; rfl
  | cons cMesh rest ih =>
      intro dev
      rw [renderMeshes_cons, List.foldl_cons, ih, renderVertices_eq_foldl]

/-- C1: `render` builds the view and projection matrices once per call,
shared across all meshes, and for each mesh in sequence order composes
world = RotationYawPitchRoll(Rotation.y, Rotation.x, Rotation.z) ·
Translation(Position) and transform = world · view · projection, then
projects and draws each vertex in index order. -/
theorem render_builds_matrices_once_and_composes_in_order
    (t : Trig) (dev : Device) (camera : Camera) (meshes : List Mesh) :
    Device.render t dev camera meshes = renderPerSpec t dev camera meshes := by
  unfold Device.render renderPerSpec
  exact renderMeshes_eq_foldl t _ _ meshes dev

lemma renderVerticesS_cons (s : Scene) (tm : Matrix) (v : Vector3)
    (vs : List Vector3) :
    renderVerticesS s tm (v :: vs) =
      renderVerticesS
        ⟨Device.drawPoint s.device (Device.project s.device v tm), s.camera, s.meshes⟩
        tm vs := rfl

lemma renderMeshesS_cons (t : Trig) (s : Scene) (viewMatrix projectionMatrix : Matrix)
    (cMesh : Mesh) (rest : List Mesh) :
    renderMeshesS t s viewMatrix projectionMatrix (cMesh :: rest) =
      renderMeshesS t
        (renderVerticesS s (Device.meshTransform t viewMatrix projectionMatrix cMesh)
          cMesh.Vertices)
        viewMatrix projectionMatrix rest := rfl

lemma renderVerticesS_device (transformMatrix : Matrix) :
    ∀ (vs : List Vector3) (s : Scene),
      renderVerticesS s transformMatrix vs =
        ⟨Device.renderVertices s.device transformMatrix vs, s.camera, s.meshes⟩ := by
  intro vs
  induction vs with
  | nil => intro s; rfl
  | cons v vs ih =>
      intro s
      rw [renderVerticesS_cons, renderVertices_cons]
      exact ih _

lemma renderMeshesS_device (t : Trig) (viewMatrix projectionMatrix : Matrix) :
    ∀ (meshes : List Mesh) (s : Scene),
      renderMeshesS t s viewMatrix projectionMatrix meshes =
        ⟨Device.renderMeshes t s.device viewMatrix projectionMatrix meshes,
         s.camera, s.meshes⟩ := by
  intro meshes
  induction meshes with
  | nil => intro s; rfl
  | cons cMesh rest ih =>
      intro s
      rw [renderMeshesS_cons, renderMeshes_cons, renderVerticesS_device, ih]

/-- C9: `render` never mutates its inputs: over the full per-frame
state, the camera (Position and Target) and every mesh (name, Position,
Rotation, Vertices) come out of the render loop exactly as they went in;
only the device changes, and it changes to `Device.render` of the
inputs. -/
theorem render_preserves_camera_and_meshes (t : Trig) (s : Scene) :
    (renderS t s).camera = s.camera ∧ (renderS t s).meshes = s.meshes ∧
      (renderS t s).device = Device.render t s.device s.camera s.meshes := by
  unfold renderS Device.render
  rw [renderMeshesS_device]
  exact ⟨rfl, rfl, rfl⟩

/-- C3: `drawPoint` on a point with x < 0, x ≥ width, y < 0 or
y ≥ height performs no `putPixel` call: the device, in particular its
pixel buffer, is returned completely unchanged (and, being a total
function, it raises nothing). -/
theorem drawPoint_out_of_bounds_no_write (dev : Device) (point : Vector2)
    (h : point.x < 0 ∨ (dev.workingWidth : ℚ) ≤ point.x ∨ point.y < 0 ∨
      (dev.workingHeight : ℚ) ≤ point.y) :
    Device.drawPoint dev point = dev := by
  unfold Device.drawPoint
  rw [if_neg]
  rintro ⟨h1, h2, h3, h4⟩
  rcases h with h5 | h5 | h5 | h5 <;> linarith

/-- Witness for C3 at a concrete input: the point (−1, 0) on a 2×2
device is discarded. -/
theorem drawPoint_out_of_bounds_no_write_witness :
    ((⟨-1, 0⟩ : Vector2).x < 0 ∨
      ((Device.mk 2 2 (List.replicate 16 0)).workingWidth : ℚ) ≤ (⟨-1, 0⟩ : Vector2).x ∨
      (⟨-1, 0⟩ : Vector2).y < 0 ∨
      ((Device.mk 2 2 (List.replicate 16 0)).workingHeight : ℚ) ≤ (⟨-1, 0⟩ : Vector2).y) ∧
    Device.drawPoint (Device.mk 2 2 (List.replicate 16 0)) ⟨-1, 0⟩ =
      Device.mk 2 2 (List.replicate 16 0) :=
  ⟨Or.inl (by norm_num),
   drawPoint_out_of_bounds_no_write _ _ (Or.inl (by norm_num))⟩

/-- C2 (amended): `project` first applies the homogeneous transform
with perspective divide and then maps to pixel space through the
ECMAScript ToInt32 conversion of the source's `>> 0`, which on values of
magnitude below 2^31 is truncation toward zero — not floor:
screenX = trunc(point.x·width + width/2),
screenY = trunc(−point.y·height + height/2), with the Y axis flipped. -/
theorem project_transform_then_trunc (dev : Device) (coord : Vector3)
    (transMat : Matrix)
    (hx1 : -(2 ^ 31) < (TransformCoordinates coord transMat).x *
      (dev.workingWidth : ℚ) + (dev.workingWidth : ℚ) / 2)
    (hx2 : (TransformCoordinates coord transMat).x * (dev.workingWidth : ℚ) +
      (dev.workingWidth : ℚ) / 2 < 2 ^ 31)
    (hy1 : -(2 ^ 31) < -(TransformCoordinates coord transMat).y *
      (dev.workingHeight : ℚ) + (dev.workingHeight : ℚ) / 2)
    (hy2 : -(TransformCoordinates coord transMat).y * (dev.workingHeight : ℚ) +
      (dev.workingHeight : ℚ) / 2 < 2 ^ 31) :
    Device.project dev coord transMat =
      ⟨((ratTrunc ((TransformCoordinates coord transMat).x *
          (dev.workingWidth : ℚ) + (dev.workingWidth : ℚ) / 2) : ℤ) : ℚ),
       ((ratTrunc (-(TransformCoordinates coord transMat).y *
          (dev.workingHeight : ℚ) + (dev.workingHeight : ℚ) / 2) : ℤ) : ℚ)⟩ := by
  simp only [Device.project]
  rw [jsToInt32_eq_ratTrunc hx1 hx2, jsToInt32_eq_ratTrunc hy1 hy2]

/-- Witness for C2's amended theorem at a concrete input: on the 800×600
device, the identity transform and the coordinate (1/4, 1/4, 0), the
projected point is (600, 150). -/
theorem project_transform_then_trunc_witness :
    Device.project (Device.mk 800 600 []) ⟨1/4, 1/4, 0⟩ idMatrix = ⟨600, 150⟩ :=
  (project_transform_then_trunc (Device.mk 800 600 []) ⟨1/4, 1/4, 0⟩ idMatrix
    (by decide) (by decide) (by decide) (by decide)).trans (by decide)

/-- C2 counterexample: the claim says screenX = ⌊point.x·width +
width/2⌋. On the 800×600 device with the identity transform and the
coordinate (−801/1600, 0, 0), the transformed value is −1/2: the source
(`>> 0`, truncation toward zero) produces 0, while the claimed floor is
−1. -/
theorem project_floor_counterexample :
    (Device.project (Device.mk 800 600 []) ⟨-801/1600, 0, 0⟩ idMatrix).x ≠
      ((⌊(TransformCoordinates ⟨-801/1600, 0, 0⟩ idMatrix).x * (800 : ℚ) +
        (800 : ℚ) / 2⌋ : ℤ) : ℚ) ∧
    (Device.project (Device.mk 800 600 []) ⟨-801/1600, 0, 0⟩ idMatrix).x = 0 ∧
    ⌊(TransformCoordinates ⟨-801/1600, 0, 0⟩ idMatrix).x * (800 : ℚ) +
      (800 : ℚ) / 2⌋ = -1 := by
  refine ⟨?_, by decide, ?_⟩
  · have h1 : (Device.project (Device.mk 800 600 []) ⟨-801/1600, 0, 0⟩ idMatrix).x = 0 :=
      by decide
    have h2 : ⌊(TransformCoordinates ⟨-801/1600, 0, 0⟩ idMatrix).x * (800 : ℚ) +
        (800 : ℚ) / 2⌋ = -1 := by
      norm_num [TransformCoordinates, idMatrix]
    rw [h1, h2]
    norm_num
  · norm_num [TransformCoordinates, idMatrix]

/-- C4: `drawPoint` on an in-bounds point calls `putPixel` at that point
with the fixed color (1, 1, 0, 1), and the four bytes that store
produces are (255, 255, 0, 255) — yellow at full opacity. -/
theorem drawPoint_in_bounds_writes_yellow (dev : Device) (point : Vector2)
    (h1 : 0 ≤ point.x) (h2 : 0 ≤ point.y)
    (h3 : point.x < (dev.workingWidth : ℚ)) (h4 : point.y < (dev.workingHeight : ℚ)) :
    Device.drawPoint dev point = Device.putPixel dev point.x point.y ⟨1, 1, 0, 1⟩ ∧
      Device.bytesOfColor ⟨1, 1, 0, 1⟩ = (255, 255, 0, 255) := by
  constructor
  · unfold Device.drawPoint
    rw [if_pos ⟨h1, h2, h3, h4⟩]
  · decide

/-- Witness for C4 at a concrete input: the point (1, 1) on a 2×2 device
with a 16-byte buffer. -/
theorem drawPoint_in_bounds_writes_yellow_witness :
    Device.drawPoint (Device.mk 2 2 (List.replicate 16 0)) ⟨1, 1⟩ =
      Device.putPixel (Device.mk 2 2 (List.replicate 16 0)) 1 1 ⟨1, 1, 0, 1⟩ ∧
      Device.bytesOfColor ⟨1, 1, 0, 1⟩ = (255, 255, 0, 255) :=
  drawPoint_in_bounds_writes_yellow (Device.mk 2 2 (List.replicate 16 0)) ⟨1, 1⟩
    (by decide) (by decide) (by decide) (by decide)

/-- C5 (amended): the coordinates passed to `putPixel` are converted by
ECMAScript ToInt32 (`>> 0`), which coincides with truncation toward zero
when their magnitudes are below 2^31; in that range the buffer index
written is ((y·width)+x)·4 on the truncated coordinates, with the four
channel bytes stored at consecutive indices in R, G, B, A order. -/
theorem putPixel_index_trunc_in_range (dev : Device) (x y : ℚ) (color : Color4)
    (hx1 : -(2 ^ 31) < x) (hx2 : x < 2 ^ 31)
    (hy1 : -(2 ^ 31) < y) (hy2 : y < 2 ^ 31) :
    Device.pixelIndex dev x y = pixelIndexPerClaim dev x y ∧
      Device.putPixel dev x y color = putPixelPerClaim dev x y color := by
  have hidx : Device.pixelIndex dev x y = pixelIndexPerClaim dev x y := by
    unfold Device.pixelIndex pixelIndexPerClaim
    rw [jsToInt32_eq_ratTrunc hx1 hx2, jsToInt32_eq_ratTrunc hy1 hy2]
    ring
  refine ⟨hidx, ?_⟩
  simp only [Device.putPixel, putPixelPerClaim, hidx]

/-- Witness for C5's amended theorem at a concrete input: coordinates
(1, 0) on a 1×1 device. -/
theorem putPixel_index_trunc_in_range_witness :
    Device.pixelIndex (Device.mk 1 1 [0, 0, 0, 0]) 1 0 =
      pixelIndexPerClaim (Device.mk 1 1 [0, 0, 0, 0]) 1 0 ∧
      Device.putPixel (Device.mk 1 1 [0, 0, 0, 0]) 1 0 ⟨1, 1, 0, 1⟩ =
        putPixelPerClaim (Device.mk 1 1 [0, 0, 0, 0]) 1 0 ⟨1, 1, 0, 1⟩ :=
  putPixel_index_trunc_in_range (Device.mk 1 1 [0, 0, 0, 0]) 1 0 ⟨1, 1, 0, 1⟩
    (by decide) (by decide) (by decide) (by decide)

/-- C5 counterexample: the claim quantifies over every coordinate pair,
but `>> 0` wraps modulo 2^32 rather than truncating. At x = 2^32 =
4294967296 on a 1×1 device, the source writes the yellow bytes at index
0 (since 4294967296 >> 0 = 0), whereas the claimed truncation rule
addresses index 4·2^32, outside the buffer, and writes nothing. -/
theorem putPixel_trunc_index_counterexample :
    (Device.putPixel (Device.mk 1 1 [0, 0, 0, 0]) 4294967296 0 ⟨1, 1, 0, 1⟩).data ≠
      (putPixelPerClaim (Device.mk 1 1 [0, 0, 0, 0]) 4294967296 0 ⟨1, 1, 0, 1⟩).data ∧
    (Device.putPixel (Device.mk 1 1 [0, 0, 0, 0]) 4294967296 0 ⟨1, 1, 0, 1⟩).data =
      [255, 255, 0, 255] ∧
    (putPixelPerClaim (Device.mk 1 1 [0, 0, 0, 0]) 4294967296 0 ⟨1, 1, 0, 1⟩).data =
      [0, 0, 0, 0] := by
  refine ⟨by decide, by decide, by decide⟩

lemma toUint8Clamp_sub_le_half (q : ℚ) (h0 : 0 ≤ q) (h255 : q ≤ 255) :
    |(toUint8Clamp q : ℚ) - q| ≤ 1 / 2 := by
  unfold toUint8Clamp
  split_ifs with h1 h2 h3 h4 h5
  · have : q = 0 := le_antisymm h1 h0
    rw [this]
    norm_num
  · have : q = 255 := le_antisymm h255 h2
    rw [this]
    norm_num
  all_goals {
    have hq : (0 : ℚ) < q := lt_of_not_le h1
    have hfl : ratTrunc q = ⌊q⌋ := ratTrunc_eq_floor h0
    have hnn : 0 ≤ ⌊q⌋ := Int.floor_nonneg.mpr h0
    have hFcast : (((ratTrunc q).toNat : ℕ) : ℚ) = ((⌊q⌋ : ℤ) : ℚ) := by
      rw [hfl]
      exact_mod_cast congrArg (fun z : ℤ => (z : ℚ)) (Int.toNat_of_nonneg hnn)
    have hle : ((⌊q⌋ : ℤ) : ℚ) ≤ q := Int.floor_le q
    have hlt : q < ((⌊q⌋ : ℤ) : ℚ) + 1 := Int.lt_floor_add_one q
    rw [abs_le]
    constructor <;> push_cast <;> rw [hFcast] <;> linarith
  }

/-- C6 (amended): the bytes `putPixel` stores are produced by the
Uint8ClampedArray conversion — multiply the channel by 255, clamp to
[0, 255] and round to the nearest integer (ties to even), not truncate:
for channels in [0, 1] every stored byte is within 1/2 of channel·255
(so channel 0.999 stores 255, as the counterexample pins down). -/
theorem putPixel_channel_round_nearest (color : Color4)
    (hr : 0 ≤ color.r ∧ color.r ≤ 1) (hg : 0 ≤ color.g ∧ color.g ≤ 1)
    (hb : 0 ≤ color.b ∧ color.b ≤ 1) (ha : 0 ≤ color.a ∧ color.a ≤ 1) :
    |((Device.bytesOfColor color).1 : ℚ) - color.r * 255| ≤ 1 / 2 ∧
    |((Device.bytesOfColor color).2.1 : ℚ) - color.g * 255| ≤ 1 / 2 ∧
    |((Device.bytesOfColor color).2.2.1 : ℚ) - color.b * 255| ≤ 1 / 2 ∧
    |((Device.bytesOfColor color).2.2.2 : ℚ) - color.a * 255| ≤ 1 / 2 := by
  unfold Device.bytesOfColor
  exact ⟨toUint8Clamp_sub_le_half _ (mul_nonneg hr.1 (by norm_num)) (by nlinarith [hr.2]),
    toUint8Clamp_sub_le_half _ (mul_nonneg hg.1 (by norm_num)) (by nlinarith [hg.2]),
    toUint8Clamp_sub_le_half _ (mul_nonneg hb.1 (by norm_num)) (by nlinarith [hb.2]),
    toUint8Clamp_sub_le_half _ (mul_nonneg ha.1 (by norm_num)) (by nlinarith [ha.2])⟩

/-- Witness for C6's amended theorem at a concrete input: the color
(0.999, 0, 1/2, 1). -/
theorem putPixel_channel_round_nearest_witness :
    |((Device.bytesOfColor ⟨999/1000, 0, 1/2, 1⟩).1 : ℚ) - (999/1000 : ℚ) * 255| ≤ 1 / 2 ∧
    |((Device.bytesOfColor ⟨999/1000, 0, 1/2, 1⟩).2.1 : ℚ) - (0 : ℚ) * 255| ≤ 1 / 2 ∧
    |((Device.bytesOfColor ⟨999/1000, 0, 1/2, 1⟩).2.2.1 : ℚ) - (1/2 : ℚ) * 255| ≤ 1 / 2 ∧
    |((Device.bytesOfColor ⟨999/1000, 0, 1/2, 1⟩).2.2.2 : ℚ) - (1 : ℚ) * 255| ≤ 1 / 2 :=
  putPixel_channel_round_nearest ⟨999/1000, 0, 1/2, 1⟩
    (by norm_num) (by norm_num) (by norm_num) (by norm_num)

/-- C6 counterexample: the claim says channel 0.999 stores byte 254
(truncation of 0.999·255 = 254.745). The store goes through a
Uint8ClampedArray, which rounds to the nearest integer: `putPixel` with
r = 0.999 on a 1×1 device stores byte 255, while truncation toward zero
of 0.999·255 is 254. -/
theorem putPixel_channel_truncation_counterexample :
    (Device.putPixel (Device.mk 1 1 [0, 0, 0, 0]) 0 0 ⟨999/1000, 0, 0, 1⟩).data =
      [255, 0, 0, 255] ∧
    ratTrunc ((999/1000 : ℚ) * 255) = 254 := by
  refine ⟨by decide, by decide⟩

lemma writeByte_length (l : List ℕ) (i : ℤ) (v : ℕ) :
    (writeByte l i v).length = l.length := by
  unfold writeByte
  split
  · simp
  · rfl

lemma putPixel_workingWidth (dev : Device) (x y : ℚ) (c : Color4) :
    (Device.putPixel dev x y c).workingWidth = dev.workingWidth := rfl

lemma putPixel_workingHeight (dev : Device) (x y : ℚ) (c : Color4) :
    (Device.putPixel dev x y c).workingHeight = dev.workingHeight := rfl

lemma putPixel_data_length (dev : Device) (x y : ℚ) (c : Color4) :
    (Device.putPixel dev x y c).data.length = dev.data.length := by
  simp only [Device.putPixel]
  rw [writeByte_length, writeByte_length, writeByte_length, writeByte_length]

lemma drawPoint_workingWidth (dev : Device) (p : Vector2) :
    (Device.drawPoint dev p).workingWidth = dev.workingWidth := by
  unfold Device.drawPoint
  split <;> rfl

lemma drawPoint_workingHeight (dev : Device) (p : Vector2) :
    (Device.drawPoint dev p).workingHeight = dev.workingHeight := by
  unfold Device.drawPoint
  split <;> rfl

lemma drawPoint_data_length (dev : Device) (p : Vector2) :
    (Device.drawPoint dev p).data.length = dev.data.length := by
  unfold Device.drawPoint
  split
  · exact putPixel_data_length _ _ _ _
  · rfl

lemma renderVertices_dims (tm : Matrix) :
    ∀ (vs : List Vector3) (dev : Device),
      (Device.renderVertices dev tm vs).workingWidth = dev.workingWidth ∧
      (Device.renderVertices dev tm vs).workingHeight = dev.workingHeight ∧
      (Device.renderVertices dev tm vs).data.length = dev.data.length := by
  intro vs
  induction vs with
  | nil => intro dev; exact ⟨rfl, rfl, rfl⟩
  | cons v vs ih =>
      intro dev
      obtain ⟨a, b, c⟩ := ih (Device.drawPoint dev (Device.project dev v tm))
      rw [renderVertices_cons]
      exact ⟨a.trans (drawPoint_workingWidth _ _), b.trans (drawPoint_workingHeight _ _),
        c.trans (drawPoint_data_length _ _)⟩

lemma renderMeshes_dims (t : Trig) (viewMatrix projectionMatrix : Matrix) :
    ∀ (meshes : List Mesh) (dev : Device),
      (Device.renderMeshes t dev viewMatrix projectionMatrix meshes).workingWidth =
        dev.workingWidth ∧
      (Device.renderMeshes t dev viewMatrix projectionMatrix meshes).workingHeight =
        dev.workingHeight ∧
      (Device.renderMeshes t dev viewMatrix projectionMatrix meshes).data.length =
        dev.data.length := by
  intro meshes
  induction meshes with
  | nil => intro dev; exact ⟨rfl, rfl, rfl⟩
  | cons cMesh rest ih =>
      intro dev
      obtain ⟨a, b, c⟩ := ih (Device.renderVertices dev
        (Device.meshTransform t viewMatrix projectionMatrix cMesh) cMesh.Vertices)
      obtain ⟨a2, b2, c2⟩ := renderVertices_dims
        (Device.meshTransform t viewMatrix projectionMatrix cMesh) cMesh.Vertices dev
      rw [renderMeshes_cons]
      exact ⟨a.trans a2, b.trans b2, c.trans c2⟩

lemma render_dims (t : Trig) (dev : Device) (camera : Camera) (meshes : List Mesh) :
    (Device.render t dev camera meshes).workingWidth = dev.workingWidth ∧
    (Device.render t dev camera meshes).workingHeight = dev.workingHeight ∧
    (Device.render t dev camera meshes).data.length = dev.data.length :=
  renderMeshes_dims t _ _ meshes dev

/-- C7: the working width and height are fixed at construction — none of
`clear`, `putPixel`, `drawPoint` or `render` changes them — and each of
these operations leaves the buffer length at exactly
width·height·4 when it was so before; `clear` replaces the buffer
wholesale by a fresh width·height·4 buffer without resizing the device. -/
theorem device_dimensions_and_buffer_invariant (t : Trig) (dev : Device) (x y : ℚ)
    (c : Color4) (p : Vector2) (camera : Camera) (meshes : List Mesh)
    (hlen : dev.data.length = dev.workingWidth * dev.workingHeight * 4) :
    ((Device.clear dev).workingWidth = dev.workingWidth ∧
     (Device.clear dev).workingHeight = dev.workingHeight ∧
     (Device.clear dev).data.length = dev.workingWidth * dev.workingHeight * 4) ∧
    ((Device.putPixel dev x y c).workingWidth = dev.workingWidth ∧
     (Device.putPixel dev x y c).workingHeight = dev.workingHeight ∧
     (Device.putPixel dev x y c).data.length =
       dev.workingWidth * dev.workingHeight * 4) ∧
    ((Device.drawPoint dev p).workingWidth = dev.workingWidth ∧
     (Device.drawPoint dev p).workingHeight = dev.workingHeight ∧
     (Device.drawPoint dev p).data.length =
       dev.workingWidth * dev.workingHeight * 4) ∧
    ((Device.render t dev camera meshes).workingWidth = dev.workingWidth ∧
     (Device.render t dev camera meshes).workingHeight = dev.workingHeight ∧
     (Device.render t dev camera meshes).data.length =
       dev.workingWidth * dev.workingHeight * 4) := by
  obtain ⟨ra, rb, rc⟩ := render_dims t dev camera meshes
  refine ⟨⟨rfl, rfl, ?_⟩, ⟨rfl, rfl, ?_⟩, ⟨drawPoint_workingWidth _ _,
    drawPoint_workingHeight _ _, ?_⟩, ⟨ra, rb, ?_⟩⟩
  · simp [Device.clear]
  · rw [putPixel_data_length, hlen]
  · rw [drawPoint_data_length, hlen]
  · rw [rc, hlen]

/-- Witness for C7 at a concrete state: a 2×2 device with a 16-byte
buffer, arbitrary concrete inputs for every operation. -/
theorem device_dimensions_and_buffer_invariant_witness :
    ((Device.clear (Device.mk 2 2 (List.replicate 16 0))).workingWidth = 2 ∧
     (Device.clear (Device.mk 2 2 (List.replicate 16 0))).workingHeight = 2 ∧
     (Device.clear (Device.mk 2 2 (List.replicate 16 0))).data.length = 2 * 2 * 4) ∧
    ((Device.putPixel (Device.mk 2 2 (List.replicate 16 0)) 1 1 ⟨1, 1, 0, 1⟩).workingWidth = 2 ∧
     (Device.putPixel (Device.mk 2 2 (List.replicate 16 0)) 1 1 ⟨1, 1, 0, 1⟩).workingHeight = 2 ∧
     (Device.putPixel (Device.mk 2 2 (List.replicate 16 0)) 1 1 ⟨1, 1, 0, 1⟩).data.length =
       2 * 2 * 4) ∧
    ((Device.drawPoint (Device.mk 2 2 (List.replicate 16 0)) ⟨1, 1⟩).workingWidth = 2 ∧
     (Device.drawPoint (Device.mk 2 2 (List.replicate 16 0)) ⟨1, 1⟩).workingHeight = 2 ∧
     (Device.drawPoint (Device.mk 2 2 (List.replicate 16 0)) ⟨1, 1⟩).data.length = 2 * 2 * 4) ∧
    ((Device.render trigZero (Device.mk 2 2 (List.replicate 16 0))
        ⟨Vector3.Zero, Vector3.Zero⟩ []).workingWidth = 2 ∧
     (Device.render trigZero (Device.mk 2 2 (List.replicate 16 0))
        ⟨Vector3.Zero, Vector3.Zero⟩ []).workingHeight = 2 ∧
     (Device.render trigZero (Device.mk 2 2 (List.replicate 16 0))
        ⟨Vector3.Zero, Vector3.Zero⟩ []).data.length = 2 * 2 * 4) :=
  device_dimensions_and_buffer_invariant trigZero (Device.mk 2 2 (List.replicate 16 0))
    1 1 ⟨1, 1, 0, 1⟩ ⟨1, 1⟩ ⟨Vector3.Zero, Vector3.Zero⟩ [] (by decide)

/-- C8: for a point produced by `project` (whose coordinates are 32-bit
integers by the `>> 0` conversion), if `drawPoint`'s bounds check
passes, the flat index `putPixel` computes is nonnegative and its last
touched byte index + 3 stays below width·height·4 — the four byte
stores are always inside the buffer on the `drawPoint` path. -/
theorem drawPoint_guard_makes_putPixel_safe (dev : Device) (coord : Vector3)
    (transMat : Matrix)
    (hlen : dev.data.length = dev.workingWidth * dev.workingHeight * 4)
    (h1 : 0 ≤ (Device.project dev coord transMat).x)
    (h2 : 0 ≤ (Device.project dev coord transMat).y)
    (h3 : (Device.project dev coord transMat).x < (dev.workingWidth : ℚ))
    (h4 : (Device.project dev coord transMat).y < (dev.workingHeight : ℚ)) :
    0 ≤ Device.pixelIndex dev (Device.project dev coord transMat).x
        (Device.project dev coord transMat).y ∧
    (Device.pixelIndex dev (Device.project dev coord transMat).x
        (Device.project dev coord transMat).y).toNat + 3 < dev.data.length := by
  obtain ⟨px, hpx, hpx1, hpx2⟩ :
      ∃ px : ℤ, (Device.project dev coord transMat).x = (px : ℚ) ∧
        -(2 ^ 31) ≤ px ∧ px < 2 ^ 31 :=
    ⟨_, rfl, jsToInt32_lb _, jsToInt32_ub _⟩
  obtain ⟨py, hpy, hpy1, hpy2⟩ :
      ∃ py : ℤ, (Device.project dev coord transMat).y = (py : ℚ) ∧
        -(2 ^ 31) ≤ py ∧ py < 2 ^ 31 :=
    ⟨_, rfl, jsToInt32_lb _, jsToInt32_ub _⟩
  rw [hpx] at h1 h3
  rw [hpy] at h2 h4
  have hx0 : 0 ≤ px := by exact_mod_cast h1
  have hy0 : 0 ≤ py := by exact_mod_cast h2
  have hxw : px < (dev.workingWidth : ℤ) := by exact_mod_cast h3
  have hyh : py < (dev.workingHeight : ℤ) := by exact_mod_cast h4
  have hW0 : (0 : ℤ) ≤ (dev.workingWidth : ℤ) := Int.ofNat_nonneg _
  have hidx : Device.pixelIndex dev (px : ℚ) (py : ℚ) =
      (px + py * (dev.workingWidth : ℤ)) * 4 := by
    unfold Device.pixelIndex
    rw [jsToInt32_intCast hpx1 hpx2, jsToInt32_intCast hpy1 hpy2]
  have hnn : 0 ≤ (px + py * (dev.workingWidth : ℤ)) * 4 :=
    mul_nonneg (add_nonneg hx0 (mul_nonneg hy0 hW0)) (by norm_num)
  have hkey : px + py * (dev.workingWidth : ℤ) ≤
      (dev.workingWidth : ℤ) * (dev.workingHeight : ℤ) - 1 := by
    nlinarith
  rw [hpx, hpy, hidx]
  refine ⟨hnn, ?_⟩
  have htn : ((((px + py * (dev.workingWidth : ℤ)) * 4).toNat : ℤ)) =
      (px + py * (dev.workingWidth : ℤ)) * 4 := Int.toNat_of_nonneg hnn
  have hfin : (((px + py * (dev.workingWidth : ℤ)) * 4).toNat : ℤ) + 3 <
      ((dev.workingWidth * dev.workingHeight * 4 : ℕ) : ℤ) := by
    rw [htn]
    push_cast
    linarith
  rw [hlen]
  exact_mod_cast hfin

/-- Witness for C8 at a concrete input: the origin under the identity
transform on a 2×2 device with a 16-byte buffer projects to (1, 1), in
bounds, and the computed index 12 satisfies 12 + 3 < 16. -/
theorem drawPoint_guard_makes_putPixel_safe_witness :
    0 ≤ Device.pixelIndex (Device.mk 2 2 (List.replicate 16 0))
        (Device.project (Device.mk 2 2 (List.replicate 16 0)) ⟨0, 0, 0⟩ idMatrix).x
        (Device.project (Device.mk 2 2 (List.replicate 16 0)) ⟨0, 0, 0⟩ idMatrix).y ∧
    (Device.pixelIndex (Device.mk 2 2 (List.replicate 16 0))
        (Device.project (Device.mk 2 2 (List.replicate 16 0)) ⟨0, 0, 0⟩ idMatrix).x
        (Device.project (Device.mk 2 2 (List.replicate 16 0)) ⟨0, 0, 0⟩ idMatrix).y).toNat +
      3 < (Device.mk 2 2 (List.replicate 16 0)).data.length :=
  drawPoint_guard_makes_putPixel_safe (Device.mk 2 2 (List.replicate 16 0)) ⟨0, 0, 0⟩
    idMatrix (by decide) (by decide) (by decide) (by decide) (by decide)

lemma writeByte_getElem_ne (l : List ℕ) (i : ℤ) (v : ℕ) (j : ℕ)
    (h : (j : ℤ) ≠ i) : (writeByte l i v)[j]? = l[j]? := by
  unfold writeByte
  split
  · next hc =>
      apply List.getElem?_set_ne
      intro heq
      apply h
      rw [← heq]
      exact Int.toNat_of_nonneg hc.1
  · rfl

lemma writeByte_getElem_self (l : List ℕ) (i : ℤ) (v : ℕ) (h0 : 0 ≤ i)
    (h : i.toNat < l.length) : (writeByte l i v)[i.toNat]? = some v := by
  unfold writeByte
  rw [if_pos ⟨h0, h⟩]
  exact List.getElem?_set_self h

/-- C10 (amended): for an in-bounds integer coordinate pair (x, y) whose
components are below 2^31 (so that the `>> 0` conversion is the
identity on them), `putPixel` changes at most the four bytes of pixel
(x, y) — indices ((y·width)+x)·4 through that plus 3; every other byte
of the buffer reads back unchanged. -/
theorem putPixel_writes_only_its_pixel (dev : Device) (x y : ℕ) (c : Color4) (j : ℕ)
    (hx : x < dev.workingWidth) (hy : y < dev.workingHeight)
    (hx32 : (x : ℤ) < 2 ^ 31) (hy32 : (y : ℤ) < 2 ^ 31)
    (hj0 : j ≠ (y * dev.workingWidth + x) * 4)
    (hj1 : j ≠ (y * dev.workingWidth + x) * 4 + 1)
    (hj2 : j ≠ (y * dev.workingWidth + x) * 4 + 2)
    (hj3 : j ≠ (y * dev.workingWidth + x) * 4 + 3) :
    (Device.putPixel dev (x : ℚ) (y : ℚ) c).data[j]? = dev.data[j]? := by
  have hxq : ((x : ℕ) : ℚ) = (((x : ℕ) : ℤ) : ℚ) := by push_cast; rfl
  have hyq : ((y : ℕ) : ℚ) = (((y : ℕ) : ℤ) : ℚ) := by push_cast; rfl
  have hpi : Device.pixelIndex dev (x : ℚ) (y : ℚ) =
      (((y * dev.workingWidth + x) * 4 : ℕ) : ℤ) := by
    unfold Device.pixelIndex
    rw [hxq, hyq, jsToInt32_intCast (by omega) hx32, jsToInt32_intCast (by omega) hy32]
    push_cast
    ring
  have h0' : (j : ℤ) ≠ (((y * dev.workingWidth + x) * 4 : ℕ) : ℤ) := by
    exact_mod_cast hj0
  have h1' : (j : ℤ) ≠ (((y * dev.workingWidth + x) * 4 : ℕ) : ℤ) + 1 := by
    exact_mod_cast hj1
  have h2' : (j : ℤ) ≠ (((y * dev.workingWidth + x) * 4 : ℕ) : ℤ) + 2 := by
    exact_mod_cast hj2
  have h3' : (j : ℤ) ≠ (((y * dev.workingWidth + x) * 4 : ℕ) : ℤ) + 3 := by
    exact_mod_cast hj3
  simp only [Device.putPixel, hpi]
  rw [writeByte_getElem_ne _ _ _ _ h3', writeByte_getElem_ne _ _ _ _ h2',
    writeByte_getElem_ne _ _ _ _ h1', writeByte_getElem_ne _ _ _ _ h0']

/-- Witness for C10's amended theorem at a concrete input: writing pixel
(0, 0) on a 2×2 device leaves byte 5 unchanged. -/
theorem putPixel_writes_only_its_pixel_witness :
    (Device.putPixel (Device.mk 2 2 (List.replicate 16 0)) ((0 : ℕ) : ℚ) ((0 : ℕ) : ℚ)
        ⟨1, 1, 0, 1⟩).data[(5 : ℕ)]? =
      (Device.mk 2 2 (List.replicate 16 0)).data[(5 : ℕ)]? :=
  putPixel_writes_only_its_pixel (Device.mk 2 2 (List.replicate 16 0)) 0 0 ⟨1, 1, 0, 1⟩ 5
    (by decide) (by decide) (by decide) (by decide)
    (by decide) (by decide) (by decide) (by decide)

/-- C10 counterexample: the claim quantifies over every in-bounds
integer pair, but `>> 0` wraps at 2^31. On `devWide` (width 3·2^30 =
3221225472, height 2, invariant-sized zero buffer) the in-bounds pair
(x, y) = (2147483648, 1) has claimed pixel index
(1·3221225472 + 2147483648)·4 = 21474836480, yet the store lands at
byte 4294967296 (= (2147483648 >> 0 + 1·3221225472)·4 with
2147483648 >> 0 = −2147483648), which lies outside the claimed four
bytes and changes from 0 to 255. -/
theorem putPixel_frame_counterexample :
    ((2147483648 : ℚ) ≥ 0 ∧ (2147483648 : ℚ) < (devWide.workingWidth : ℚ)) ∧
    ((1 : ℚ) ≥ 0 ∧ (1 : ℚ) < (devWide.workingHeight : ℚ)) ∧
    (4294967296 : ℕ) + 3 < (1 * devWide.workingWidth + 2147483648) * 4 ∧
    devWide.data[(4294967296 : ℕ)]? = some 0 ∧
    (Device.putPixel devWide 2147483648 1 ⟨1, 1, 0, 1⟩).data[(4294967296 : ℕ)]? =
      some 255 := by
  refine ⟨⟨by norm_num, by decide⟩, ⟨by norm_num, by decide⟩, by decide, ?_, ?_⟩
  · show (List.replicate 25769803776 (0 : ℕ))[(4294967296 : ℕ)]? = some 0
    exact List.getElem?_replicate_of_lt (by norm_num)
  · have hpi : Device.pixelIndex devWide 2147483648 1 = 4294967296 := by decide
    have hb1 : (Device.bytesOfColor ⟨1, 1, 0, 1⟩).1 = 255 := by decide
    simp only [Device.putPixel, hpi, hb1]
    have hlen : devWide.data.length = 25769803776 := by
      show (List.replicate 25769803776 (0 : ℕ)).length = 25769803776
      exact List.length_replicate _ _
    rw [writeByte_getElem_ne _ _ _ _ (by norm_num),
      writeByte_getElem_ne _ _ _ _ (by norm_num),
      writeByte_getElem_ne _ _ _ _ (by norm_num)]
    have hself := writeByte_getElem_self devWide.data 4294967296 255 (by norm_num)
      (by rw [hlen]; norm_num)
    simpa using hself

end SoftRenderer
